import Mathlib

/-!
Shallow embedding of the JIRA status automation pipeline
(`jira_status_automation.py` and `main.py`): the defensive field
extractor, the authentication negotiation, the paginated raw-HTTP
search loop with per-record parsing, the datetime normalization of the
two retrieval paths, and the status aggregator.  Machine times are
modelled as integers (seconds); a Python `datetime` is a wall-clock
reading together with an optional UTC offset (in minutes), `none`
meaning timezone-naive.
-/

/-! ### Python values for the field extractor (`main.py`, `safe_get_attr`)

A loosely structured record is either a scalar, a mapping-style `dict`
(whose data keys are *not* Python attributes: `hasattr({"a": 1}, "a")`
is `False`), or an attribute-style object whose data attributes are
listed explicitly. -/

inductive PyVal where
  | vint : Int → PyVal
  | vstr : String → PyVal
  | dict : List (String × PyVal) → PyVal
  | obj : List (String × PyVal) → PyVal

/-- Attribute lookup on an attribute-style object: `getattr` guarded by
`hasattr`, as one optional lookup. -/
def getattrOpt (attrs : List (String × PyVal)) (a : String) : Option PyVal :=
  match attrs with
  | [] => none
  | (k, v) :: t => if k = a then some v else getattrOpt t a

/-- One step of `safe_get_attr`'s loop body: `hasattr(current, attr)`
followed by `getattr`.  Only attribute-style objects expose data
attributes; the data keys of a `dict` and the fields of scalars are not
attributes. -/
def getattrStep (v : PyVal) (a : String) : Option PyVal :=
  match v with
  | .obj attrs => getattrOpt attrs a
  | _ => none

/-- `attr_path.split('.')` — split a string on every dot, keeping empty
segments, as Python's `str.split('.')` does. -/
def splitDotsAux : List Char → List Char → List String
  | [], acc => [String.mk acc.reverse]
  | c :: t, acc =>
      if c = '.' then String.mk acc.reverse :: splitDotsAux t []
      else splitDotsAux t (c :: acc)

def splitDots (s : String) : List String :=
  splitDotsAux s.data []

/-- The `for attr in attrs` loop of `safe_get_attr`: at each step, if
the current value exposes the next attribute, descend; otherwise return
the default immediately. -/
def safe_get_attr_go (cur : PyVal) (attrs : List String) (default : PyVal) : PyVal :=
  match attrs with
  | [] => cur
  | a :: rest =>
      match getattrStep cur a with
      | some v => safe_get_attr_go v rest default
      | none => default

/-- `safe_get_attr(obj, attr_path, default)` from `main.py`: split the
dotted path and traverse by attribute access only, with the default as
fallback. -/
def safe_get_attr (obj : PyVal) (attr_path : String) (default : PyVal) : PyVal :=
  safe_get_attr_go obj (splitDots attr_path) default

/-- `splitDotsAux` never returns the empty list. -/
theorem splitDotsAux_ne_nil (l acc : List Char) : splitDotsAux l acc ≠ [] := by
  induction l generalizing acc with
  | nil => simp [splitDotsAux]
  | cons c t ih =>
      simp only [splitDotsAux]
      split
      · simp
      · exact ih _

/-- The nested mapping-style record of the spec's example,
`{"a": {"b": {"c": 7}}}`, as a raw-JSON `dict`. -/
def nestedDictRecord : PyVal :=
  .dict [("a", .dict [("b", .dict [("c", .vint 7)])])]

/-- The same nested shape as an attribute-bearing object. -/
def nestedObjRecord : PyVal :=
  .obj [("a", .obj [("b", .obj [("c", .vint 7)])])]

/-- C1 counterexample: on the mapping-style record `{"a":{"b":{"c":7}}}`
the extractor returns the default `"X"`, not `7` — a raw `dict` does not
expose its data keys as attributes, and `safe_get_attr` only ever uses
attribute access. -/
theorem safe_get_attr_dict_returns_default :
    safe_get_attr nestedDictRecord "a.b.c" (.vstr "X") = .vstr "X" ∧
    safe_get_attr nestedDictRecord "a.b.c" (.vstr "X") ≠ .vint 7 := by
  constructor
  · rfl
  · intro h
    simp [safe_get_attr, splitDots, splitDotsAux, nestedDictRecord,
      safe_get_attr_go, getattrStep] at h

/-- C1 (amended): `safe_get_attr` traverses attribute-style objects step
by step and returns the default as soon as a step is not exposed as an
attribute, never raising; `get({}, "a.b.c", "X") = "X"` and the
attribute-bearing nested object yields `7`, but every mapping-style
`dict` record yields the default for every path, because dict data keys
are not attributes. -/
theorem safe_get_attr_attribute_only :
    safe_get_attr (.dict []) "a.b.c" (.vstr "X") = .vstr "X" ∧
    safe_get_attr nestedObjRecord "a.b.c" (.vstr "X") = .vint 7 ∧
    ∀ entries path default, safe_get_attr (.dict entries) path default = default := by
  refine ⟨rfl, rfl, ?_⟩
  intro entries path default
  unfold safe_get_attr
  rcases h : splitDots path with _ | ⟨a, rest⟩
  · exact absurd h (splitDotsAux_ne_nil _ _)
  · simp [safe_get_attr_go, getattrStep]

/-! ### Datetimes and the normalized task record

A Python `datetime` is modelled as the wall-clock reading it prints
(`val`, in seconds) together with its `tzinfo` (`tz`, a UTC offset in
minutes, `none` for a naive datetime). -/

structure PyDateTime where
  val : Int
  tz : Option Int
deriving DecidableEq

/-- `datetime.fromisoformat` on an ISO string whose date/time part reads
`t`: the result is timezone-aware exactly when the string carries an
explicit offset. -/
def fromisoformat (t : Int) (off : Option Int) : PyDateTime :=
  { val := t, tz := off }

/-- `dt.replace(tzinfo=None)`. -/
def replace_tzinfo_none (d : PyDateTime) : PyDateTime :=
  { val := d.val, tz := none }

/-- The suffix shape of an ISO-8601 timestamp string containing `'T'`:
a trailing `Z`, an explicit `±HH:MM` offset, or no offset marker. -/
inductive IsoSuffix where
  | zulu : IsoSuffix
  | offset : Int → IsoSuffix
  | bare : IsoSuffix
deriving DecidableEq

/-- Inputs reaching the library path's `parse_datetime`: an
already-structured datetime object, an ISO string containing `'T'`
(date/time reading `t`, suffix shape), or a string without `'T'`. -/
inductive DtInput where
  | dtobj : PyDateTime → DtInput
  | isoT : Int → IsoSuffix → DtInput
  | plain : DtInput

/-- `parse_datetime` nested in `_parse_jira_library_issue`
(library retrieval path): a datetime object is stripped of its tzinfo
when aware; a `'T'`-string has `Z` rewritten to `+00:00` (or `+00:00`
appended when no offset is present), is parsed with `fromisoformat`,
and is then stripped of its tzinfo; a string without `'T'` falls back
to `datetime.now()` (naive ambient clock `now`). -/
def lib_parse_datetime (now : Int) : DtInput → PyDateTime
  | .dtobj d => if d.tz.isSome then replace_tzinfo_none d else d
  | .isoT t suf =>
      match suf with
      | .zulu => replace_tzinfo_none (fromisoformat t (some 0))
      | .offset m => replace_tzinfo_none (fromisoformat t (some m))
      | .bare => replace_tzinfo_none (fromisoformat t (some 0))
  | .plain => { val := now, tz := none }

/-- The raw-JSON path's timestamp parse in `_parse_issue`:
`datetime.fromisoformat(s.replace('Z', '+00:00'))` — no tzinfo
stripping, so the result is aware exactly when the string carried an
offset or a trailing `Z`. -/
def raw_parse_timestamp (t : Int) (suf : IsoSuffix) : PyDateTime :=
  match suf with
  | .zulu => fromisoformat t (some 0)
  | .offset m => fromisoformat t (some m)
  | .bare => fromisoformat t none

/-- The normalized issue record (`JiraTask` dataclass). -/
structure JiraTask where
  key : String
  summary : String
  status : String
  assignee : Option String
  priority : String
  created : PyDateTime
  updated : PyDateTime
  project : String
  issue_type : String
  story_points : Option Int
  components : List String
  labels : List String
  description : String
deriving DecidableEq

/-! ### StatusSummarizer (`summarize_tasks`) -/

/-- `self.status_groups` built by `StatusSummarizer.__init__`. -/
def status_groups : List (String × List String) :=
  [("completed", ["Done", "Closed", "Resolved", "Complete"]),
   ("in_progress", ["In Progress", "In Development", "In Review", "Testing"]),
   ("blocked", ["Blocked", "Waiting", "On Hold"]),
   ("todo", ["To Do", "Open", "New", "Backlog"])]

/-- `_categorize_status`: first group whose status list contains the raw
status name, else `"other"`. -/
def categorize_status (groups : List (String × List String)) (status : String) : String :=
  match groups with
  | [] => "other"
  | (g, sts) :: rest => if sts.contains status then g else categorize_status rest status

/-- A Python dict used as a counter, in insertion order.
`incr` is `d[k] = d.get(k, 0) + 1`: bump an existing key in place,
append a fresh key at the end. -/
def incr (d : List (String × Nat)) (k : String) : List (String × Nat) :=
  match d with
  | [] => [(k, 1)]
  | (k₁, v) :: t => if k₁ = k then (k₁, v + 1) :: t else (k₁, v) :: incr t k

/-- `d.get(k, 0)`. -/
def lookup0 (d : List (String × Nat)) (k : String) : Nat :=
  match d with
  | [] => 0
  | (k₁, v) :: t => if k₁ = k then v else lookup0 t k

/-- `sum(d.values())`. -/
def sumVals (d : List (String × Nat)) : Nat :=
  (d.map (fun e => e.2)).sum

/-- The `'story_points'` sub-dict of the summary. -/
structure StoryPoints where
  total : Int
  completed : Int
deriving DecidableEq

/-- The `'timeline'` sub-dict of the summary. -/
structure Timeline where
  this_week : List JiraTask
  last_week : List JiraTask
deriving DecidableEq

/-- The summary dict built by `summarize_tasks` for a non-empty task
list. -/
structure Summary where
  total_tasks : Nat
  by_status : List (String × Nat)
  by_project : List (String × Nat)
  by_assignee : List (String × Nat)
  by_priority : List (String × Nat)
  recent_updates : List JiraTask
  story_points : StoryPoints
  timeline : Timeline
deriving DecidableEq

/-- `summarize_tasks` returns either the error dict
`{"error": "No tasks found"}` or a summary dict. -/
inductive SummarizeResult where
  | error : String → SummarizeResult
  | ok : Summary → SummarizeResult
deriving DecidableEq

/-- `task.assignee or 'Unassigned'` — Python truthiness: `None` and the
empty string both fall back to the sentinel. -/
def effective_assignee (t : JiraTask) : String :=
  match t.assignee with
  | none => "Unassigned"
  | some s => if s = "" then "Unassigned" else s

/-- The body of the `for task in tasks` loop of `summarize_tasks`:
histogram increments, the truthiness-guarded story-point roll-up, and
the recency split (`updated >= week_ago` into this week, else
`updated >= two_weeks_ago` into last week). -/
def summarize_step (week_ago two_weeks_ago : Int) (s : Summary) (task : JiraTask) : Summary :=
  let status_group := categorize_status status_groups task.status
  let s := { s with by_status := incr s.by_status status_group }
  let s := { s with by_project := incr s.by_project task.project }
  let s := { s with by_assignee := incr s.by_assignee (effective_assignee task) }
  let s := { s with by_priority := incr s.by_priority task.priority }
  let s :=
    match task.story_points with
    | none => s
    | some p =>
        if p = 0 then s
        else
          { s with story_points :=
              { total := s.story_points.total + p,
                completed :=
                  if status_group = "completed" then s.story_points.completed + p
                  else s.story_points.completed } }
  if week_ago ≤ task.updated.val then
    { s with timeline := { s.timeline with this_week := s.timeline.this_week ++ [task] } }
  else if two_weeks_ago ≤ task.updated.val then
    { s with timeline := { s.timeline with last_week := s.timeline.last_week ++ [task] } }
  else s

/-- Stable insertion placing `a` before the first element whose
`updated` it is greater than or equal to — the effect of Python's
stable `list.sort(key=lambda x: x.updated, reverse=True)`. -/
def insertByUpdatedDesc (a : JiraTask) : List JiraTask → List JiraTask
  | [] => [a]
  | b :: t =>
      if b.updated.val ≤ a.updated.val then a :: b :: t
      else b :: insertByUpdatedDesc a t

/-- Stable sort by `updated` descending. -/
def sortByUpdatedDesc : List JiraTask → List JiraTask
  | [] => []
  | a :: t => insertByUpdatedDesc a (sortByUpdatedDesc t)

/-- `summarize_tasks(tasks)` with the ambient clock `datetime.now()`
passed explicitly as `now` (seconds): the empty guard, the initial
summary dict, the aggregation loop, and the final descending sort of
both timeline buckets. -/
def summarize_tasks (tasks : List JiraTask) (now : Int) : SummarizeResult :=
  if tasks = [] then .error "No tasks found"
  else
    let week_ago := now - 7 * 86400
    let two_weeks_ago := now - 14 * 86400
    let init : Summary :=
      { total_tasks := tasks.length, by_status := [], by_project := [],
        by_assignee := [], by_priority := [], recent_updates := [],
        story_points := { total := 0, completed := 0 },
        timeline := { this_week := [], last_week := [] } }
    let s := tasks.foldl (summarize_step week_ago two_weeks_ago) init
    .ok { s with timeline :=
            { this_week := sortByUpdatedDesc s.timeline.this_week,
              last_week := sortByUpdatedDesc s.timeline.last_week } }

/-! ### Counter and loop lemmas for the aggregator -/

theorem sumVals_incr (d : List (String × Nat)) (k : String) :
    sumVals (incr d k) = sumVals d + 1 := by
  induction d with
  | nil => simp [incr, sumVals]
  | cons e t ih =>
      obtain ⟨k₁, v⟩ := e
      by_cases h : k₁ = k
      · simp only [incr, h, if_pos, ite_true, sumVals, List.map_cons, List.sum_cons]
        omega
      · simp only [incr, h, if_neg, ite_false, sumVals, List.map_cons, List.sum_cons]
        simp only [sumVals] at ih
        omega

theorem lookup0_incr_self (d : List (String × Nat)) (k : String) :
    lookup0 (incr d k) k = lookup0 d k + 1 := by
  induction d with
  | nil => simp [incr, lookup0]
  | cons e t ih =>
      obtain ⟨k₁, v⟩ := e
      by_cases h : k₁ = k
      · simp [incr, h, lookup0]
      · simp [incr, h, lookup0, ih]

/-- `summarize_step` updates `by_status` by one increment. -/
theorem summarize_step_by_status (w tw : Int) (s : Summary) (t : JiraTask) :
    (summarize_step w tw s t).by_status =
      incr s.by_status (categorize_status status_groups t.status) := by
  unfold summarize_step
  rcases t.story_points with _ | p <;> simp only [] <;> split_ifs <;> rfl

/-- `summarize_step` updates `by_assignee` by one increment. -/
theorem summarize_step_by_assignee (w tw : Int) (s : Summary) (t : JiraTask) :
    (summarize_step w tw s t).by_assignee = incr s.by_assignee (effective_assignee t) := by
  unfold summarize_step
  rcases t.story_points with _ | p <;> simp only [] <;> split_ifs <;> rfl

/-- `summarize_step` never touches `total_tasks`. -/
theorem summarize_step_total (w tw : Int) (s : Summary) (t : JiraTask) :
    (summarize_step w tw s t).total_tasks = s.total_tasks := by
  unfold summarize_step
  rcases t.story_points with _ | p <;> simp only [] <;> split_ifs <;> rfl

/-- The recency split appends to `this_week` exactly when
`week_ago <= task.updated`. -/
theorem summarize_step_this_week (w tw : Int) (s : Summary) (t : JiraTask) :
    (summarize_step w tw s t).timeline.this_week =
      if w ≤ t.updated.val then s.timeline.this_week ++ [t]
      else s.timeline.this_week := by
  unfold summarize_step
  rcases t.story_points with _ | p <;> simp only [] <;> split_ifs <;> rfl

/-- The recency split appends to `last_week` exactly when
`task.updated` is in `[two_weeks_ago, week_ago)`. -/
theorem summarize_step_last_week (w tw : Int) (s : Summary) (t : JiraTask) :
    (summarize_step w tw s t).timeline.last_week =
      if ¬ w ≤ t.updated.val ∧ tw ≤ t.updated.val then s.timeline.last_week ++ [t]
      else s.timeline.last_week := by
  unfold summarize_step
  rcases t.story_points with _ | p <;> simp only [] <;> split_ifs <;> first | rfl | tauto

/-- Over the whole loop, `this_week` collects the tasks satisfying
`week_ago <= updated`, in list order. -/
theorem foldl_this_week (w tw : Int) (tasks : List JiraTask) (s : Summary) :
    (tasks.foldl (summarize_step w tw) s).timeline.this_week =
      s.timeline.this_week ++ tasks.filter (fun t => decide (w ≤ t.updated.val)) := by
  induction tasks generalizing s with
  | nil => simp
  | cons t rest ih =>
      simp only [List.foldl_cons, List.filter_cons, ih, summarize_step_this_week]
      by_cases h : w ≤ t.updated.val <;> simp [h]

/-- Over the whole loop, `last_week` collects the tasks in the
`[two_weeks_ago, week_ago)` window, in list order. -/
theorem foldl_last_week (w tw : Int) (tasks : List JiraTask) (s : Summary) :
    (tasks.foldl (summarize_step w tw) s).timeline.last_week =
      s.timeline.last_week ++
        tasks.filter (fun t => !decide (w ≤ t.updated.val) && decide (tw ≤ t.updated.val)) := by
  induction tasks generalizing s with
  | nil => simp
  | cons t rest ih =>
      simp only [List.foldl_cons, List.filter_cons, ih, summarize_step_last_week]
      by_cases h1 : w ≤ t.updated.val <;> by_cases h2 : tw ≤ t.updated.val <;>
        simp [h1, h2]

theorem foldl_total (w tw : Int) (tasks : List JiraTask) (s : Summary) :
    (tasks.foldl (summarize_step w tw) s).total_tasks = s.total_tasks := by
  induction tasks generalizing s with
  | nil => rfl
  | cons t rest ih => simp [List.foldl_cons, ih, summarize_step_total]

theorem foldl_sumVals_by_status (w tw : Int) (tasks : List JiraTask) (s : Summary) :
    sumVals (tasks.foldl (summarize_step w tw) s).by_status =
      sumVals s.by_status + tasks.length := by
  induction tasks generalizing s with
  | nil => simp
  | cons t rest ih =>
      simp only [List.foldl_cons, List.length_cons, ih, summarize_step_by_status,
        sumVals_incr]
      omega

theorem foldl_sumVals_by_assignee (w tw : Int) (tasks : List JiraTask) (s : Summary) :
    sumVals (tasks.foldl (summarize_step w tw) s).by_assignee =
      sumVals s.by_assignee + tasks.length := by
  induction tasks generalizing s with
  | nil => simp
  | cons t rest ih =>
      simp only [List.foldl_cons, List.length_cons, ih, summarize_step_by_assignee,
        sumVals_incr]
      omega

theorem lookup0_incr_other (d : List (String × Nat)) (k j : String) (h : k ≠ j) :
    lookup0 (incr d k) j = lookup0 d j := by
  induction d with
  | nil => simp [incr, lookup0, h]
  | cons e t ih =>
      obtain ⟨k₁, v⟩ := e
      by_cases h₁ : k₁ = k
      · subst h₁
        simp [incr, lookup0, h]
      · simp [incr, h₁, lookup0, ih]

theorem foldl_lookup0_by_assignee (w tw : Int) (k : String) (tasks : List JiraTask)
    (s : Summary) :
    lookup0 (tasks.foldl (summarize_step w tw) s).by_assignee k =
      lookup0 s.by_assignee k +
        (tasks.filter (fun t => decide (effective_assignee t = k))).length := by
  induction tasks generalizing s with
  | nil => simp
  | cons t rest ih =>
      simp only [List.foldl_cons, List.filter_cons, ih, summarize_step_by_assignee]
      by_cases h : effective_assignee t = k
      · subst h
        simp [lookup0_incr_self]
        omega
      · simp [h, lookup0_incr_other _ _ _ h]

/-! ### Sorting the timeline buckets -/

theorem mem_insertByUpdatedDesc (a x : JiraTask) (l : List JiraTask) :
    x ∈ insertByUpdatedDesc a l ↔ x = a ∨ x ∈ l := by
  induction l with
  | nil => simp [insertByUpdatedDesc]
  | cons b t ih =>
      simp only [insertByUpdatedDesc]
      split
      · simp [or_comm, or_assoc]
      · simp [ih]
        tauto

theorem mem_sortByUpdatedDesc (x : JiraTask) (l : List JiraTask) :
    x ∈ sortByUpdatedDesc l ↔ x ∈ l := by
  induction l with
  | nil => simp [sortByUpdatedDesc]
  | cons a t ih => simp [sortByUpdatedDesc, mem_insertByUpdatedDesc, ih]

theorem pairwise_insertByUpdatedDesc (a : JiraTask) (l : List JiraTask)
    (h : List.Pairwise (fun x y => y.updated.val ≤ x.updated.val) l) :
    List.Pairwise (fun x y => y.updated.val ≤ x.updated.val) (insertByUpdatedDesc a l) := by
  induction l with
  | nil => simp [insertByUpdatedDesc]
  | cons b t ih =>
      rcases List.pairwise_cons.mp h with ⟨hb, ht⟩
      simp only [insertByUpdatedDesc]
      split
      · rename_i hba
        refine List.pairwise_cons.mpr ⟨?_, h⟩
        intro y hy
        rcases List.mem_cons.mp hy with rfl | hyt
        · exact hba
        · exact le_trans (hb y hyt) hba
      · rename_i hba
        refine List.pairwise_cons.mpr ⟨?_, ih ht⟩
        intro y hy
        rcases (mem_insertByUpdatedDesc a y t).mp hy with rfl | hyt
        · omega
        · exact hb y hyt

/-- The timeline sort produces a list sorted by `updated` descending. -/
theorem pairwise_sortByUpdatedDesc (l : List JiraTask) :
    List.Pairwise (fun x y => y.updated.val ≤ x.updated.val) (sortByUpdatedDesc l) := by
  induction l with
  | nil => simp [sortByUpdatedDesc]
  | cons a t ih => exact pairwise_insertByUpdatedDesc a _ ih

/-- Shape of a successful `summarize_tasks` run: the task list is
non-empty and the summary is the loop result with both timeline buckets
sorted. -/
theorem summarize_tasks_ok_shape (tasks : List JiraTask) (now : Int) (s : Summary)
    (h : summarize_tasks tasks now = .ok s) :
    tasks ≠ [] ∧
      s = { tasks.foldl (summarize_step (now - 7 * 86400) (now - 14 * 86400))
              { total_tasks := tasks.length, by_status := [], by_project := [],
                by_assignee := [], by_priority := [], recent_updates := [],
                story_points := { total := 0, completed := 0 },
                timeline := { this_week := [], last_week := [] } } with
            timeline :=
              { this_week := sortByUpdatedDesc
                  (tasks.foldl (summarize_step (now - 7 * 86400) (now - 14 * 86400))
                    { total_tasks := tasks.length, by_status := [], by_project := [],
                      by_assignee := [], by_priority := [], recent_updates := [],
                      story_points := { total := 0, completed := 0 },
                      timeline := { this_week := [], last_week := [] } }).timeline.this_week,
                last_week := sortByUpdatedDesc
                  (tasks.foldl (summarize_step (now - 7 * 86400) (now - 14 * 86400))
                    { total_tasks := tasks.length, by_status := [], by_project := [],
                      by_assignee := [], by_priority := [], recent_updates := [],
                      story_points := { total := 0, completed := 0 },
                      timeline := { this_week := [], last_week := [] } }).timeline.last_week } } := by
  unfold summarize_tasks at h
  by_cases he : tasks = []
  · simp [he] at h
  · simp only [he, if_neg, ite_false] at h
    exact ⟨he, (SummarizeResult.ok.injEq _ _).mp h.symm⟩

/-- Projections of a successful `summarize_tasks` run: both timeline
buckets are the sorted filters of the recency split, `total_tasks` is
the input length, both histogram totals equal the input length, and the
per-assignee count of any label is the number of tasks carrying it. -/
theorem summarize_ok_proj (tasks : List JiraTask) (now : Int) (s : Summary)
    (h : summarize_tasks tasks now = .ok s) :
    s.timeline.this_week =
      sortByUpdatedDesc (tasks.filter fun t => decide (now - 7 * 86400 ≤ t.updated.val)) ∧
    s.timeline.last_week =
      sortByUpdatedDesc (tasks.filter fun t =>
        !decide (now - 7 * 86400 ≤ t.updated.val) && decide (now - 14 * 86400 ≤ t.updated.val)) ∧
    s.total_tasks = tasks.length ∧
    sumVals s.by_status = tasks.length ∧
    sumVals s.by_assignee = tasks.length ∧
    ∀ k, lookup0 s.by_assignee k =
      (tasks.filter fun t => decide (effective_assignee t = k)).length := by
  unfold summarize_tasks at h
  by_cases he : tasks = []
  · simp [he] at h
  · simp only [he, ite_false] at h
    have hs := (SummarizeResult.ok.injEq _ _).mp h
    subst hs
    refine ⟨?_, ?_, ?_, ?_, ?_, ?_⟩
    · simp only [foldl_this_week, List.nil_append]
    · simp only [foldl_last_week, List.nil_append]
    · simp only [foldl_total]
    · dsimp only
      rw [foldl_sumVals_by_status]
      simp [sumVals]
    · dsimp only
      rw [foldl_sumVals_by_assignee]
      simp [sumVals]
    · intro k
      dsimp only
      rw [foldl_lookup0_by_assignee]
      simp [lookup0]

/-- C2 counterexample: aggregating the empty list does not yield a
zero Summary — `summarize_tasks` returns the error dict
`{"error": "No tasks found"}`. -/
theorem summarize_tasks_empty_is_error :
    summarize_tasks [] 0 = SummarizeResult.error "No tasks found" := by
  rfl

/-- C2 (amended): aggregating the empty issue list never raises, but it
returns the error value `{"error": "No tasks found"}` rather than a
well-formed zero Summary, for every reference time. -/
theorem summarize_tasks_empty_never_raises :
    ∀ now : Int, summarize_tasks [] now = SummarizeResult.error "No tasks found" := by
  intro now
  rfl

/-- A task updated exactly 7 days (604800 s) before the reference time
604800. -/
def boundaryTask : JiraTask :=
  { key := "PROJ-7", summary := "boundary", status := "Done", assignee := none,
    priority := "Major", created := { val := 0, tz := none },
    updated := { val := 0, tz := none }, project := "PROJ", issue_type := "Task",
    story_points := none, components := [], labels := [], description := "" }

/-- The summary `summarize_tasks` produces for `[boundaryTask]` at
reference time 604800. -/
def boundarySummary : Summary :=
  { total_tasks := 1, by_status := [("completed", 1)], by_project := [("PROJ", 1)],
    by_assignee := [("Unassigned", 1)], by_priority := [("Major", 1)],
    recent_updates := [], story_points := { total := 0, completed := 0 },
    timeline := { this_week := [boundaryTask], last_week := [] } }

/-- C4 counterexample: an issue updated exactly 7 days before the
reference time lands in the `this_week` bucket (the code tests
`updated >= week_ago`), not in `last_week` as the claim states. -/
theorem summarize_seven_day_boundary_in_this_week :
    summarize_tasks [boundaryTask] 604800 = SummarizeResult.ok boundarySummary ∧
    boundarySummary.timeline.this_week = [boundaryTask] ∧
    boundarySummary.timeline.last_week = [] :=
  ⟨by decide, rfl, rfl⟩

/-- C4 (amended): in a successful aggregation, an issue updated exactly
7 days before the reference time falls into `this_week` (not
`last_week`); one updated exactly at the reference time falls into
`this_week`; one updated exactly 14 days before falls into `last_week`;
one updated strictly more than 14 days before falls into neither bucket
yet still counts toward `total_tasks`; and both buckets are sorted by
`updated` descending. -/
theorem summarize_recency_split (tasks : List JiraTask) (now : Int) (s : Summary)
    (h : summarize_tasks tasks now = .ok s) :
    (∀ t ∈ tasks, t.updated.val = now - 7 * 86400 →
        t ∈ s.timeline.this_week ∧ t ∉ s.timeline.last_week) ∧
    (∀ t ∈ tasks, t.updated.val = now → t ∈ s.timeline.this_week) ∧
    (∀ t ∈ tasks, t.updated.val = now - 14 * 86400 →
        t ∈ s.timeline.last_week ∧ t ∉ s.timeline.this_week) ∧
    (∀ t ∈ tasks, t.updated.val < now - 14 * 86400 →
        t ∉ s.timeline.this_week ∧ t ∉ s.timeline.last_week) ∧
    s.total_tasks = tasks.length ∧
    List.Pairwise (fun a b => b.updated.val ≤ a.updated.val) s.timeline.this_week ∧
    List.Pairwise (fun a b => b.updated.val ≤ a.updated.val) s.timeline.last_week := by
  obtain ⟨hTW, hLW, hTot, -, -, -⟩ := summarize_ok_proj tasks now s h
  refine ⟨?_, ?_, ?_, ?_, hTot, ?_, ?_⟩
  · intro t ht heq
    constructor
    · rw [hTW, mem_sortByUpdatedDesc, List.mem_filter]
      refine ⟨ht, ?_⟩
      simp only [decide_eq_true_eq]
      omega
    · rw [hLW, mem_sortByUpdatedDesc, List.mem_filter]
      rintro ⟨-, hp⟩
      simp only [Bool.and_eq_true, Bool.not_eq_true', decide_eq_false_iff_not,
        decide_eq_true_eq] at hp
      omega
  · intro t ht heq
    rw [hTW, mem_sortByUpdatedDesc, List.mem_filter]
    refine ⟨ht, ?_⟩
    simp only [decide_eq_true_eq]
    omega
  · intro t ht heq
    constructor
    · rw [hLW, mem_sortByUpdatedDesc, List.mem_filter]
      refine ⟨ht, ?_⟩
      simp only [Bool.and_eq_true, Bool.not_eq_true', decide_eq_false_iff_not,
        decide_eq_true_eq]
      omega
    · rw [hTW, mem_sortByUpdatedDesc, List.mem_filter]
      rintro ⟨-, hp⟩
      simp only [decide_eq_true_eq] at hp
      omega
  · intro t ht hlt
    constructor
    · rw [hTW, mem_sortByUpdatedDesc, List.mem_filter]
      rintro ⟨-, hp⟩
      simp only [decide_eq_true_eq] at hp
      omega
    · rw [hLW, mem_sortByUpdatedDesc, List.mem_filter]
      rintro ⟨-, hp⟩
      simp only [Bool.and_eq_true, Bool.not_eq_true', decide_eq_false_iff_not,
        decide_eq_true_eq] at hp
      omega
  · rw [hTW]
    exact pairwise_sortByUpdatedDesc _
  · rw [hLW]
    exact pairwise_sortByUpdatedDesc _

/-- Witness for the amended recency split at the 7-day boundary task. -/
theorem summarize_recency_split_witness :
    summarize_tasks [boundaryTask] 604800 = SummarizeResult.ok boundarySummary ∧
    boundaryTask ∈ boundarySummary.timeline.this_week ∧
    boundaryTask ∉ boundarySummary.timeline.last_week := by
  have h : summarize_tasks [boundaryTask] 604800 = SummarizeResult.ok boundarySummary := by
    decide
  have h2 := (summarize_recency_split [boundaryTask] 604800 boundarySummary h).1 boundaryTask
    (by simp) (by decide)
  exact ⟨h, h2.1, h2.2⟩

/-- C5: in a successful aggregation, the by-status histogram values sum
to the issue count, the by-assignee histogram values sum to the issue
count, the `"Unassigned"` bucket counts exactly the tasks whose
effective assignee label is the sentinel, and a task lacking an
assignee always gets the sentinel label. -/
theorem summarize_histogram_sums (tasks : List JiraTask) (now : Int) (s : Summary)
    (h : summarize_tasks tasks now = .ok s) :
    sumVals s.by_status = tasks.length ∧
    sumVals s.by_assignee = tasks.length ∧
    lookup0 s.by_assignee "Unassigned" =
      (tasks.filter fun t => decide (effective_assignee t = "Unassigned")).length ∧
    ∀ t : JiraTask, t.assignee = none → effective_assignee t = "Unassigned" := by
  obtain ⟨-, -, -, h1, h2, h3⟩ := summarize_ok_proj tasks now s h
  exact ⟨h1, h2, h3 "Unassigned", fun t ht => by simp [effective_assignee, ht]⟩

/-- Witness for the histogram totals on a concrete unassigned task. -/
theorem summarize_histogram_sums_witness :
    sumVals boundarySummary.by_status = 1 ∧
    sumVals boundarySummary.by_assignee = 1 ∧
    lookup0 boundarySummary.by_assignee "Unassigned" = 1 := by
  have h := summarize_histogram_sums [boundaryTask] 604800 boundarySummary (by decide)
  refine ⟨h.1, h.2.1, ?_⟩
  rw [h.2.2.1]
  decide

/-- Ambient process state visible to the summarizer call: the wall
clock read by `datetime.now()` plus unrelated process state (the
environment, the working directory, previously written reports). -/
structure Ambient where
  clock : Int
  env : List (String × String)
  cwd : String
  last_report : Option String

/-- `StatusSummarizer().summarize_tasks(tasks)` run inside an ambient
process state: the only ambient value it reads is the clock. -/
def summarize_tasks_at (amb : Ambient) (tasks : List JiraTask) : SummarizeResult :=
  summarize_tasks tasks amb.clock

/-- C9: aggregation is a pure function of the issue list and the
reference time — two runs in ambient states that agree on the clock
(and on nothing else) over equal issue lists produce identical
summaries. -/
theorem summarize_tasks_pure (a₁ a₂ : Ambient) (tasks₁ tasks₂ : List JiraTask)
    (hc : a₁.clock = a₂.clock) (ht : tasks₁ = tasks₂) :
    summarize_tasks_at a₁ tasks₁ = summarize_tasks_at a₂ tasks₂ := by
  unfold summarize_tasks_at
  rw [hc, ht]

/-- Witness: two ambient states differing in everything but the clock
give identical summaries. -/
theorem summarize_tasks_pure_witness :
    summarize_tasks_at
        { clock := 604800, env := [("HOME", "/root")], cwd := "/a", last_report := none }
        [boundaryTask] =
      summarize_tasks_at
        { clock := 604800, env := [], cwd := "/b", last_report := some "r.md" }
        [boundaryTask] :=
  summarize_tasks_pure _ _ _ _ rfl rfl

/-! ### JiraClient authentication negotiation (`test_connection`) -/

/-- The credential state of a `JiraClient` after `__init__`. -/
structure JiraClientConfig where
  base_url : String
  username : Option String
  api_token : Option String
  has_oauth : Bool
  oauth_access_token : Option String

/-- `self.auth` is set by `__init__` exactly when no OAuth config was
given and both username and API token are present. -/
def has_basic_auth (c : JiraClientConfig) : Bool :=
  !c.has_oauth && c.username.isSome && c.api_token.isSome

/-- The network as `test_connection` observes it: the outcome of the
library token identity check, and for each probe candidate the HTTP
status of its `GET .../myself` (`none` models a network-level
exception — timeout, TLS failure, connection error). -/
structure Transport where
  token_auth_ok : Bool
  probe : Nat → Option Nat

/-- What `test_connection` leaves behind: its boolean result, the
recorded working API version, endpoint root and auth method, whether
the token check ran, and the candidate indices actually probed in
order. -/
structure ConnResult where
  ok : Bool
  api_version : Option Nat
  api_endpoint : Option String
  auth_method : Option String
  token_checked : Bool
  probed : List Nat
deriving DecidableEq

/-- The fixed `test_methods` candidate list: (index, API version,
auth transport) — basic auth with v3, basic auth with v2,
Authorization header with v3, Authorization header with v2. -/
def test_methods : List (Nat × Nat × String) :=
  [(0, 3, "basic"), (1, 2, "basic"), (2, 3, "header"), (3, 2, "header")]

/-- The `for method in test_methods` loop: issue the candidate's
identity request; a 200 response records the version (3 for an
`api/3` URL, else 2), the endpoint root and the transport, and halts;
any other status or a network error continues with the next
candidate. -/
def probe_loop (base_url : String) (t : Transport) (tc : Bool) :
    List (Nat × Nat × String) → ConnResult
  | [] =>
      { ok := false, api_version := none, api_endpoint := none, auth_method := none,
        token_checked := tc, probed := [] }
  | (i, ver, meth) :: rest =>
      if t.probe i = some 200 then
        { ok := true, api_version := some ver,
          api_endpoint := some (base_url ++ "/rest/api/" ++ toString ver),
          auth_method := some meth, token_checked := tc, probed := [i] }
      else
        let r := probe_loop base_url t tc rest
        { r with probed := i :: r.probed }

/-- `test_connection`: try the library token check first when an API
token is present (success records version 2 and skips every probe);
the OAuth test is a documented no-op returning `False`; without basic
credentials, fail without probing; otherwise run the candidate
loop. -/
def test_connection (c : JiraClientConfig) (t : Transport) : ConnResult :=
  if c.api_token.isSome && t.token_auth_ok then
    { ok := true, api_version := some 2,
      api_endpoint := some (c.base_url ++ "/rest/api/2"),
      auth_method := some "token_auth", token_checked := true, probed := [] }
  else if !has_basic_auth c then
    { ok := false, api_version := none, api_endpoint := none, auth_method := none,
      token_checked := c.api_token.isSome, probed := [] }
  else
    probe_loop c.base_url t c.api_token.isSome test_methods

/-- C6: token short-circuit and probe-loop halting.  (1) With an API
token present and the token identity check succeeding, negotiation
terminates authenticated with API version 2 recorded and no candidate
is probed.  (2) In the candidate loop, if candidate `i` is the first
to return HTTP 200, exactly the candidates `0..i` are probed — nothing
after the success — and `i`'s version and transport are recorded. -/
theorem test_connection_halts_on_success (c : JiraClientConfig) (t : Transport) :
    (c.api_token.isSome = true → t.token_auth_ok = true →
      (test_connection c t).ok = true ∧
      (test_connection c t).api_version = some 2 ∧
      (test_connection c t).auth_method = some "token_auth" ∧
      (test_connection c t).probed = []) ∧
    (∀ i ver meth, (i, ver, meth) ∈ test_methods → t.probe i = some 200 →
      (∀ j, j < i → t.probe j ≠ some 200) →
      has_basic_auth c = true → t.token_auth_ok = false →
      (test_connection c t).ok = true ∧
      (test_connection c t).api_version = some ver ∧
      (test_connection c t).auth_method = some meth ∧
      (test_connection c t).probed = List.range (i + 1)) := by
  constructor
  · intro h1 h2
    simp [test_connection, h1, h2]
  · intro i ver meth hmem h200 hprev hbasic htok
    have htoken : c.api_token.isSome = true := by
      simp [has_basic_auth, Bool.and_eq_true] at hbasic
      exact hbasic.2
    have hcond : (c.api_token.isSome && t.token_auth_ok) = false := by
      simp [htok]
    simp only [test_connection, hcond, Bool.false_eq_true, if_false, hbasic,
      Bool.not_true, ite_false]
    simp only [test_methods, List.mem_cons, List.mem_singleton,
      Prod.mk.injEq, List.not_mem_nil, or_false] at hmem
    rcases hmem with ⟨rfl, rfl, rfl⟩ | ⟨rfl, rfl, rfl⟩ | ⟨rfl, rfl, rfl⟩ | ⟨rfl, rfl, rfl⟩
    · simp [test_methods, probe_loop, h200, List.range_succ]
    · have h0 := hprev 0 (by omega)
      simp [test_methods, probe_loop, h0, h200, List.range_succ]
    · have h0 := hprev 0 (by omega)
      have h1 := hprev 1 (by omega)
      simp [test_methods, probe_loop, h0, h1, h200, List.range_succ]
    · have h0 := hprev 0 (by omega)
      have h1 := hprev 1 (by omega)
      have h2 := hprev 2 (by omega)
      simp [test_methods, probe_loop, h0, h1, h2, h200, List.range_succ]

/-- A client with username and API token and no OAuth config. -/
def basicConfig : JiraClientConfig :=
  { base_url := "https://jira.example.com", username := some "user@example.com",
    api_token := some "tok", has_oauth := false, oauth_access_token := none }

/-- A transport whose token check fails and where only candidate 2
(Authorization header + API v3) answers 200. -/
def headerV3Transport : Transport :=
  { token_auth_ok := false, probe := fun i => if i = 2 then some 200 else some 401 }

/-- A transport whose token check succeeds. -/
def tokenOkTransport : Transport :=
  { token_auth_ok := true, probe := fun _ => some 401 }

/-- Witness: the token short-circuit probes nothing, and with the first
success at candidate 2 exactly candidates 0, 1, 2 are probed with
version 3 and the header transport recorded. -/
theorem test_connection_halts_on_success_witness :
    (test_connection basicConfig tokenOkTransport).probed = [] ∧
    (test_connection basicConfig tokenOkTransport).api_version = some 2 ∧
    (test_connection basicConfig headerV3Transport).ok = true ∧
    (test_connection basicConfig headerV3Transport).api_version = some 3 ∧
    (test_connection basicConfig headerV3Transport).auth_method = some "header" ∧
    (test_connection basicConfig headerV3Transport).probed = List.range 3 := by
  have h1 := (test_connection_halts_on_success basicConfig tokenOkTransport).1 (by decide) rfl
  have h2 := (test_connection_halts_on_success basicConfig headerV3Transport).2 2 3 "header"
    (by decide) (by decide)
    (by
      intro j hj
      have hne : j ≠ 2 := by omega
      simp [headerV3Transport, hne])
    (by decide) rfl
  exact ⟨h1.2.2.2, h1.2.1, h2.1, h2.2.1, h2.2.2.1, h2.2.2.2⟩

/-- C7: the two retrieval paths do not normalize timestamps to one
representation.  The library path strips tzinfo and always returns a
naive datetime; the raw-JSON path keeps the parsed offset, so a
`Z`-suffixed or offset-bearing string yields an aware datetime there —
and the raw path itself mixes naive (bare string) with aware (offset
string) results. -/
theorem datetime_normalization_mixed :
    lib_parse_datetime 0 (.isoT 5 .zulu) = { val := 5, tz := none } ∧
    raw_parse_timestamp 5 .zulu = { val := 5, tz := some 0 } ∧
    (raw_parse_timestamp 5 .zulu).tz ≠ (lib_parse_datetime 0 (.isoT 5 .zulu)).tz ∧
    (raw_parse_timestamp 5 .bare).tz = none ∧
    ∀ (now : Int) (d : DtInput), (lib_parse_datetime now d).tz = none := by
  refine ⟨rfl, rfl, by decide, rfl, ?_⟩
  intro now d
  rcases d with ⟨v, _ | o⟩ | ⟨t, suf⟩ | _
  · simp [lib_parse_datetime]
  · simp [lib_parse_datetime, replace_tzinfo_none]
  · rcases suf <;> rfl
  · rfl

/-! ### Raw-HTTP search (`_execute_search`) and record parsing
(`_parse_issue`) -/

/-- A raw JSON issue as `_parse_issue` reads it.  Optional fields model
missing keys (a `KeyError` on a mandatory field is caught and drops the
record); `assignee_display` is `none` for a null/absent assignee and
`some dn` for an assignee object whose `displayName` is `dn` (itself
optional, defaulting to `"Unknown"`); timestamps are the ISO string's
reading and suffix shape; the nested ADF description extraction is
abstracted to the text it extracts, if any. -/
structure RawIssue where
  key : Option String
  has_fields : Bool
  summary : Option String
  status_name : Option String
  assignee_display : Option (Option String)
  priority_name : Option String
  created : Option (Int × IsoSuffix)
  updated : Option (Int × IsoSuffix)
  project_key : Option String
  issuetype_name : Option String
  story_points : Option Int
  components : List String
  labels : List String
  description_text : Option String

/-- `_parse_issue`: build a `JiraTask` from the raw record; any missing
mandatory field (`fields`, `key`, `summary`, `status.name`,
`priority.name`, `created`, `updated`, `project.key`,
`issuetype.name`) raises inside the `try`, is caught, and yields
`None`. -/
def parse_issue (r : RawIssue) : Option JiraTask :=
  if !r.has_fields then none
  else
    match r.key, r.summary, r.status_name, r.priority_name, r.created, r.updated,
        r.project_key, r.issuetype_name with
    | some k, some sm, some st, some pr, some (ct, cs), some (ut, us), some pj, some it =>
        some { key := k, summary := sm, status := st,
               assignee :=
                 match r.assignee_display with
                 | none => none
                 | some dn => some (dn.getD "Unknown"),
               priority := pr,
               created := raw_parse_timestamp ct cs,
               updated := raw_parse_timestamp ut us,
               project := pj, issue_type := it,
               story_points := r.story_points,
               components := r.components, labels := r.labels,
               description := r.description_text.getD "" }
    | _, _, _, _, _, _, _, _ => none

/-- One page of the search endpoint's response: HTTP status, the
`issues` array, and the server-reported `total`.  A non-200 status also
stands for the network-level failures, all of which break the loop. -/
structure SearchPage where
  status : Nat
  issues : List RawIssue
  total : Nat

/-- The `while True` pagination loop of `_execute_search`, with
explicit fuel standing for the unbounded loop: request the page at
`start_at`; on a non-200 response break with what was collected so
far; otherwise parse every record independently, keep the well-formed
ones, and continue at `start_at + 50` while
`start_at + max_results < total`.  Returns the collected tasks and the
offsets requested, in order. -/
def execute_search_loop (server : Nat → SearchPage) : Nat → Nat → List JiraTask × List Nat
  | 0, _ => ([], [])
  | fuel + 1, start_at =>
      let page := server start_at
      if page.status ≠ 200 then ([], [start_at])
      else
        let page_tasks := page.issues.filterMap parse_issue
        if start_at + 50 ≥ page.total then (page_tasks, [start_at])
        else
          let rest := execute_search_loop server fuel (start_at + 50)
          (page_tasks ++ rest.1, start_at :: rest.2)

/-- `_execute_search`: with no working API endpoint established, log and
return the empty list without touching the network; otherwise run the
pagination loop from offset 0 with page size 50. -/
def execute_search (api_endpoint : Option String) (server : Nat → SearchPage)
    (fuel : Nat) : List JiraTask × List Nat :=
  match api_endpoint with
  | none => ([], [])
  | some _ => execute_search_loop server fuel 0

/-- C10: with `api_endpoint` still unset, `_execute_search` returns the
empty list immediately — for every server and every fuel bound, no
offset is ever requested and no task is returned. -/
theorem execute_search_no_endpoint (server : Nat → SearchPage) (fuel : Nat) :
    execute_search none server fuel = ([], []) := rfl

/-- The fake three-page search endpoint of the spec's pagination test:
every page reports `total = 120` and serves `p0`, `p1`, `p2` at
offsets 0, 50, 100. -/
def server3 (p0 p1 p2 : List RawIssue) : Nat → SearchPage :=
  fun o =>
    if o = 0 then { status := 200, issues := p0, total := 120 }
    else if o = 50 then { status := 200, issues := p1, total := 120 }
    else { status := 200, issues := p2, total := 120 }

/-- C3: pagination.  Against a search endpoint reporting `total = 120`,
the raw-HTTP loop issues exactly three page requests at offsets 0, 50,
100 and returns the concatenation of the non-malformed records of all
pages; and in general each iteration requests its offset and continues
exactly while the response is a 200 whose reported total satisfies
`offset + page_size < total`. -/
theorem execute_search_pagination (p0 p1 p2 : List RawIssue) (fuel : Nat)
    (h : 3 ≤ fuel) :
    execute_search (some "https://jira.example.com/rest/api/2") (server3 p0 p1 p2) fuel =
      ((p0 ++ p1 ++ p2).filterMap parse_issue, [0, 50, 100]) ∧
    ∀ (server : Nat → SearchPage) (f s : Nat),
      (execute_search_loop server (f + 1) s).2 =
        s :: (if (server s).status = 200 ∧ s + 50 < (server s).total
              then (execute_search_loop server f (s + 50)).2 else []) := by
  constructor
  · obtain ⟨k, rfl⟩ : ∃ k, fuel = k + 3 := ⟨fuel - 3, by omega⟩
    simp [execute_search, execute_search_loop, server3, List.filterMap_append]
  · intro server f s
    by_cases h1 : (server s).status = 200
    · by_cases h2 : s + 50 < (server s).total
      · simp only [execute_search_loop, h1, ne_eq, not_true_eq_false, ite_false]
        have : ¬ s + 50 ≥ (server s).total := by omega
        simp [this, h1, h2]
      · simp only [execute_search_loop, h1, ne_eq, not_true_eq_false, ite_false]
        have : s + 50 ≥ (server s).total := by omega
        simp [this, h1, h2]
    · simp [execute_search_loop, h1]

/-- Witness: the pagination theorem at empty pages with fuel 5. -/
theorem execute_search_pagination_witness :
    execute_search (some "https://jira.example.com/rest/api/2") (server3 [] [] []) 5 =
      ([], [0, 50, 100]) := by
  have h := (execute_search_pagination [] [] [] 5 (by decide)).1
  simpa using h

/-- A well-formed raw record. -/
def goodRaw : RawIssue :=
  { key := some "PROJ-1", has_fields := true, summary := some "all good",
    status_name := some "Done", assignee_display := none,
    priority_name := some "Major", created := some (0, .zulu),
    updated := some (0, .zulu), project_key := some "PROJ",
    issuetype_name := some "Task", story_points := none, components := [],
    labels := [], description_text := none }

/-- A malformed raw record: its mandatory `summary` field is missing,
so `_parse_issue` raises inside its `try` and returns `None`. -/
def badRaw : RawIssue :=
  { key := some "PROJ-2", has_fields := true, summary := none,
    status_name := some "Done", assignee_display := none,
    priority_name := some "Major", created := some (0, .zulu),
    updated := some (0, .zulu), project_key := some "PROJ",
    issuetype_name := some "Task", story_points := none, components := [],
    labels := [], description_text := none }

/-- C8 counterexample: no count of parse failures is kept.  The entire
observable outcome of the fetch — returned tasks and requested
offsets — is identical whether the page contains a malformed record or
not, so nothing in the fetch's result or state counts the parse
failures (they are only logged per record). -/
theorem execute_search_no_parse_failure_count :
    parse_issue badRaw = none ∧
    execute_search (some "https://jira.example.com/rest/api/2")
        (fun _ => { status := 200, issues := [goodRaw, badRaw], total := 2 }) 5 =
      execute_search (some "https://jira.example.com/rest/api/2")
        (fun _ => { status := 200, issues := [goodRaw], total := 2 }) 5 :=
  ⟨by decide, by decide⟩

/-- C8 (amended): every record of a page is parsed independently; a
malformed record is dropped — not emitted and not aborting the page or
the fetch — and the remaining well-formed records of the page are still
returned; but no count of the parse failures is kept (they are only
logged). -/
theorem execute_search_drops_malformed (l₁ l₂ : List RawIssue) (bad : RawIssue)
    (hbad : parse_issue bad = none) (fuel : Nat) (h : 1 ≤ fuel) :
    execute_search (some "https://jira.example.com/rest/api/2")
        (fun _ => { status := 200, issues := l₁ ++ bad :: l₂, total := 1 }) fuel =
      (l₁.filterMap parse_issue ++ l₂.filterMap parse_issue, [0]) := by
  obtain ⟨k, rfl⟩ : ∃ k, fuel = k + 1 := ⟨fuel - 1, by omega⟩
  simp [execute_search, execute_search_loop, List.filterMap_append, hbad]

/-- Witness: a page holding a good record and a summary-less record
yields exactly the good record's task and one page request. -/
theorem execute_search_drops_malformed_witness :
    parse_issue badRaw = none ∧
    execute_search (some "https://jira.example.com/rest/api/2")
        (fun _ => { status := 200, issues := [goodRaw] ++ badRaw :: [], total := 1 }) 5 =
      (List.filterMap parse_issue [goodRaw] ++ List.filterMap parse_issue [], [0]) := by
  have hb : parse_issue badRaw = none := by decide
  exact ⟨hb, execute_search_drops_malformed [goodRaw] [] badRaw hb 5 (by decide)⟩
